import Mathlib

/-!
# Verification of the audio-mixer segment/join pipeline

Shallow embedding of the server-side pipeline of the `audio-mixer`
repository (`src/shared/schema.ts`, `src/server/routes.ts`,
`src/server/storage.ts`): marker validation, timestamp sorting, segment
building, the crossfade join plan, the processing-job lifecycle, the
download endpoint, and the job-status update.

Timestamps and durations (JS floating-point numbers used as exact seconds
values) are modelled as rationals `ℚ`; the `order` field (an integer) as
`Int`; wall-clock instants (`new Date()`) and byte buffers are opaque
(`Nat` / `List Nat`); UUIDs are modelled by a `Nat` counter.
-/

namespace AudioMixer

/-- A marker as submitted by the client: `{ timestamp, order }`
(`markerSchema` in `src/shared/schema.ts`). -/
structure Marker where
  timestamp : ℚ
  order : Int
deriving DecidableEq, Repr

/-- A derived segment `{ startTime, endTime }`
(`src/server/routes.ts`, `processAudioAsyncToMemory`). -/
structure Segment where
  startTime : ℚ
  endTime : ℚ
deriving DecidableEq, Repr

/-- The comparison the server's marker sort uses:
`(a, b) => a.timestamp - b.timestamp` keeps `a` before `b`
whenever `a.timestamp ≤ b.timestamp` (comparator result `≤ 0`). -/
def markerLE : Marker → Marker → Prop :=
  fun a b => a.timestamp ≤ b.timestamp

instance : DecidableRel markerLE :=
  fun a b => inferInstanceAs (Decidable (a.timestamp ≤ b.timestamp))

instance : IsTotal Marker markerLE :=
  ⟨fun a b => le_total a.timestamp b.timestamp⟩

instance : IsTrans Marker markerLE :=
  ⟨fun _ _ _ hab hbc => le_trans hab hbc⟩

/-- `[...markers].sort((a, b) => a.timestamp - b.timestamp)`
(`src/server/routes.ts` lines 255 and 283, and the pair check in
`markerListSchema`). JavaScript's `Array.prototype.sort` is a stable
sort, and a stable sort by a fixed key has a unique result, so the
stable `List.insertionSort` by `markerLE` is an exact model. -/
def sortMarkers (ms : List Marker) : List Marker :=
  ms.insertionSort markerLE

/-- The segment-building loop of `processAudioAsyncToMemory`
(`src/server/routes.ts` lines 290–303; identical loop in
`generatePreviewBuffer`, lines 259–266): walk the sorted markers two at
a time; when both `sortedMarkers[i]` and `sortedMarkers[i+1]` exist and
`startMarker.timestamp < endMarker.timestamp`, push the segment,
otherwise push nothing and continue (a lone trailing marker has
`endMarker === undefined`, so it is skipped). -/
def buildSegments : List Marker → List Segment
  | [] => []
  | [_] => []
  | a :: b :: rest =>
    if a.timestamp < b.timestamp then
      { startTime := a.timestamp, endTime := b.timestamp } :: buildSegments rest
    else
      buildSegments rest

/-- A stream label in the ffmpeg filter graph built by
`processSegmentsToBuffer` (crossfade branch, `src/server/routes.ts` lines
381–398): `input i` is `[i:a]`, the audio of the `i`-th extracted segment
artifact (ffmpeg input `segmentFiles[i]`), and `merged i` is the named
intermediate `[a0i]`, the running merged result after `i` crossfades. -/
inductive StreamLabel where
  | input : Nat → StreamLabel
  | merged : Nat → StreamLabel
deriving DecidableEq, Repr

/-- One `acrossfade` filter of the chain: `left` and `right` are its two
input streams, `d` its `d=` duration, `out` its output label. -/
structure CrossfadeOp where
  left : StreamLabel
  right : StreamLabel
  d : ℚ
  out : StreamLabel
deriving DecidableEq, Repr

/-- The filter chain built by the loop
`for (i = 0; i < segmentFiles.length - 1; i++)`:
`i = 0` appends `[0:a][1:a]acrossfade=d=D[a01]` and `i > 0` appends
`[a0i][(i+1):a]acrossfade=d=D[a0(i+1)]` (`src/server/routes.ts` lines
384–388), for `n` segment files and crossfade duration `d`. The final
`-map` selects `[a0(n-1)]`, the last op's output. -/
def crossfadeChain (n : Nat) (d : ℚ) : List CrossfadeOp :=
  (List.range (n - 1)).map fun i =>
    if i = 0 then
      { left := .input 0, right := .input 1, d := d, out := .merged 1 }
    else
      { left := .merged i, right := .input (i + 1), d := d,
        out := .merged (i + 1) }

/-- The four job status strings of `processing_jobs.status`
(`src/shared/schema.ts` line 27). -/
inductive JobStatus where
  | pending
  | processing
  | completed
  | failed
deriving DecidableEq, Repr

/-- `markerSchema`: `timestamp` non-negative, `order` a non-negative
integer (`src/shared/schema.ts` lines 49–52). -/
def markerValid (m : Marker) : Bool :=
  decide (0 ≤ m.timestamp) && decide (0 ≤ m.order)

/-- The second refinement of `markerListSchema` (`src/shared/schema.ts`
lines 62–75): walk the timestamp-sorted list two at a time and require
`start` and `end` to exist with `start.timestamp < end.timestamp`
(the code returns `false` on `!start || !end || start.timestamp >=
end.timestamp`; on an odd list the last pair has no `end`). -/
def pairsStrict : List Marker → Bool
  | [] => true
  | [_] => false
  | a :: b :: t => decide (a.timestamp < b.timestamp) && pairsStrict t

/-- `markerListSchema` (`src/shared/schema.ts` lines 54–75): element-wise
`markerSchema`, at least two markers, an even count, and strictly
increasing sorted pairs. -/
def markerListValid (ms : List Marker) : Bool :=
  ms.all markerValid && decide (2 ≤ ms.length) && (ms.length % 2 == 0) &&
    pairsStrict (sortMarkers ms)

/-- `z.number().min(0.1).max(5)` for `crossfadeDuration`
(`src/shared/schema.ts` line 81); `0.1 = mkRat 1 10`. -/
def crossfadeDurationValid (d : ℚ) : Bool :=
  decide (mkRat 1 10 ≤ d) && decide (d ≤ 5)

/-- The body of a `/api/process` request
(`processAudioSchema`, `src/shared/schema.ts` lines 77–82). -/
structure SubmitRequest where
  audioFileId : String
  markers : List Marker
  outputMode : String
  crossfadeDuration : Option ℚ
deriving DecidableEq, Repr

/-- `processAudioSchema.parse` succeeds exactly when the markers pass
`markerListSchema`, `outputMode` is `"direct"` or `"crossfade"`, and
`crossfadeDuration`, when present, is in range (it is optional for every
mode). -/
def processRequestValid (r : SubmitRequest) : Bool :=
  markerListValid r.markers &&
  (r.outputMode == "direct" || r.outputMode == "crossfade") &&
  (match r.crossfadeDuration with
   | none => true
   | some d => crossfadeDurationValid d)

/-- A stored audio file row, reduced to the fields the `/api/process`
handler reads (`audioFiles` in `src/shared/schema.ts`). -/
structure AudioFileRec where
  id : String
  duration : ℚ
deriving DecidableEq, Repr

/-- A `processing_jobs` row (`src/shared/schema.ts` lines 22–31,
materialised by `MemStorage.createProcessingJob`). -/
structure ProcessingJob where
  id : Nat
  audioFileId : String
  outputMode : String
  crossfadeDuration : Option ℚ
  status : JobStatus
  outputFilename : Option String
  createdAt : Nat
  completedAt : Option Nat
deriving DecidableEq, Repr

/-- The `MemStorage` maps the routes touch (`src/server/storage.ts`):
audio file rows, job rows, and per-job output buffers, plus the UUID
source (`nextId`) and the clock (`now`). -/
structure ServerState where
  audioFiles : List AudioFileRec
  jobs : List ProcessingJob
  jobOutputs : List (Nat × List Nat)
  nextId : Nat
  now : Nat
deriving DecidableEq, Repr

/-- The asynchronous call `processAudioAsyncToMemory(job.id, audioFileId,
markers, outputMode, crossfadeDuration || 1.0)` fired by the accepted
submit (`src/server/routes.ts` line 199). -/
structure SpawnedTask where
  jobId : Nat
  audioFileId : String
  markers : List Marker
  outputMode : String
  crossfadeDuration : ℚ
deriving DecidableEq, Repr

/-- The possible responses of the `/api/process` handler:
a Zod validation `400`, the audio-file `404`, the marker-out-of-range
`400`, or `{ jobId }`. -/
inductive SubmitResponse where
  | validationError
  | audioNotFound
  | markersExceedDuration
  | accepted : Nat → SubmitResponse
deriving DecidableEq, Repr

/-- `Math.max(...markers.map(m => m.timestamp))` on a non-empty list
(`src/server/routes.ts` line 184; validation guarantees at least two
markers before this line runs, so the empty case is unreachable). -/
def maxTimestamp : List Marker → ℚ
  | [] => 0
  | m :: t => t.foldl (fun acc x => max acc x.timestamp) m.timestamp

/-- `storage.getAudioFile(id)` (`src/server/storage.ts`). -/
def findAudioFile (st : ServerState) (fid : String) : Option AudioFileRec :=
  st.audioFiles.find? (fun a => a.id == fid)

/-- The job row the handler creates (`src/server/routes.ts` lines
190–196 with `MemStorage.createProcessingJob`): status `"pending"`,
`crossfadeDuration` is `crossfadeDuration || 1.0` for crossfade mode
(`|| 1.0` agrees with `getD 1` because a validated value is at least
`0.1`, never the falsy `0`) and `null` otherwise, `outputFilename` null,
`completedAt` null. -/
def mkProcessingJob (r : SubmitRequest) (st : ServerState) : ProcessingJob :=
  { id := st.nextId
    audioFileId := r.audioFileId
    outputMode := r.outputMode
    crossfadeDuration :=
      if r.outputMode == "crossfade" then some (r.crossfadeDuration.getD 1)
      else none
    status := .pending
    outputFilename := none
    createdAt := st.now
    completedAt := none }

/-- The synchronous part of the `/api/process` handler
(`src/server/routes.ts` lines 173–209): Zod-parse the body (a `ZodError`
answers `400` at once), look up the audio file (`404` when unknown),
reject markers beyond the audio duration (`maxTime > audioFile.duration`),
otherwise create the pending job, spawn `processAudioAsyncToMemory`, and
answer `{ jobId }`. The returned `Option SpawnedTask` is the spawned
asynchronous call, `none` when no processing was started — the transcoder
is only ever invoked from inside a spawned task. -/
def postProcess (r : SubmitRequest) (st : ServerState) :
    SubmitResponse × ServerState × Option SpawnedTask :=
  if processRequestValid r then
    match findAudioFile st r.audioFileId with
    | none => (.audioNotFound, st, none)
    | some af =>
      if af.duration < maxTimestamp r.markers then
        (.markersExceedDuration, st, none)
      else
        let job := mkProcessingJob r st
        (.accepted job.id,
         { st with jobs := st.jobs ++ [job], nextId := st.nextId + 1 },
         some { jobId := job.id, audioFileId := r.audioFileId,
                markers := r.markers, outputMode := r.outputMode,
                crossfadeDuration := r.crossfadeDuration.getD 1 })
  else
    (.validationError, st, none)

/-- The number of transcoder invocations `processSegmentsToBuffer` issues
when every invocation succeeds (`src/server/routes.ts` lines 316–414):
one extract for the single-segment branch, otherwise one extract per
segment plus one join invocation. -/
def planEngineCalls (t : SpawnedTask) : Nat :=
  let segs := buildSegments (sortMarkers t.markers)
  if segs.length == 1 then 1 else segs.length + 1

/-- The sequence of `updateProcessingJobStatus` calls one run of
`processAudioAsyncToMemory` performs (`src/server/routes.ts` lines
270–314): `"processing"` first; then `"failed"` when the audio bytes are
missing or the marker count is odd (both `throw` into the `catch`),
`"completed"` when the transcoder run succeeds, and `"failed"` when it
fails. `bytesPresent` models `getAudioBytes` finding the buffer and
`engineOk` the black-box transcoder outcome. -/
def processTaskTrace (t : SpawnedTask) (bytesPresent : Bool)
    (engineOk : Bool) : List JobStatus :=
  if !bytesPresent then [.processing, .failed]
  else if !((sortMarkers t.markers).length % 2 == 0) then
    [.processing, .failed]
  else if engineOk then [.processing, .completed]
  else [.processing, .failed]

/-- The full status history of one job in the sequential execution model:
created `"pending"` by the submit handler, then the updates applied by
its `processAudioAsyncToMemory` run. -/
def jobStatusTrace (t : SpawnedTask) (bytesPresent : Bool)
    (engineOk : Bool) : List JobStatus :=
  .pending :: processTaskTrace t bytesPresent engineOk

/-- The transitions the spec's job state machine allows:
`pending → processing`, `processing → completed`,
`processing → failed`, nothing else. -/
def stepAllowed : JobStatus → JobStatus → Bool
  | .pending, .processing => true
  | .processing, .completed => true
  | .processing, .failed => true
  | _, _ => false

/-- `storage.getProcessingJob(id)` (`src/server/storage.ts`). -/
def getJob (st : ServerState) (id : Nat) : Option ProcessingJob :=
  st.jobs.find? (fun j => j.id == id)

/-- `storage.getJobOutput(jobId)` (`src/server/storage.ts` line 302). -/
def getJobOutput (st : ServerState) (id : Nat) : Option (List Nat) :=
  (st.jobOutputs.find? (fun p => p.1 == id)).map (fun p => p.2)

/-- `storage.deleteJobOutput(jobId)` (`src/server/storage.ts` lines
306–308): remove the entry from the `jobOutputs` map. -/
def deleteJobOutput (st : ServerState) (id : Nat) : ServerState :=
  { st with jobOutputs := st.jobOutputs.filter (fun p => !(p.1 == id)) }

/-- The responses of `/api/jobs/:id/download`: the joint
`"Processed file not found"` `404` (job missing or not completed), the
`"Output not found"` `404`, or the byte stream. -/
inductive DownloadResponse where
  | processedFileNotFound
  | outputNotFound
  | fileData : List Nat → DownloadResponse
deriving DecidableEq, Repr

/-- The `/api/jobs/:id/download` handler (`src/server/routes.ts` lines
226–244): `404` unless the job exists and is completed, `404` when the
output buffer is gone, otherwise send the bytes and then delete the
stored output. -/
def downloadJob (st : ServerState) (id : Nat) :
    DownloadResponse × ServerState :=
  match getJob st id with
  | none => (.processedFileNotFound, st)
  | some job =>
    if job.status = .completed then
      match getJobOutput st id with
      | none => (.outputNotFound, st)
      | some data => (.fileData data, deleteJobOutput st id)
    else
      (.processedFileNotFound, st)

/-- The row produced by `MemStorage.updateProcessingJobStatus`
(`src/server/storage.ts` lines 271–283): spread the old job, overwrite
`status`, set `outputFilename` to `outputFilename ?? null` (so a missing
argument stores `null`), and set `completedAt` to `new Date()` exactly
when the new status is `"completed"`, keeping the old value otherwise. -/
def updateJobRecord (job : ProcessingJob) (status : JobStatus)
    (outputFilename : Option String) (now : Nat) : ProcessingJob :=
  { job with
    status := status
    outputFilename := outputFilename
    completedAt := if status = .completed then some now else job.completedAt }

/-- `MemStorage.updateProcessingJobStatus` including the map access:
`undefined` for an unknown id, otherwise store and return the updated
row. -/
def updateProcessingJobStatus (st : ServerState) (id : Nat)
    (status : JobStatus) (outputFilename : Option String) :
    Option ProcessingJob × ServerState :=
  match getJob st id with
  | none => (none, st)
  | some job =>
    let j := updateJobRecord job status outputFilename st.now
    (some j,
     { st with jobs := st.jobs.map (fun x => if x.id == id then j else x) })

/-- A stored audio file of duration 10 s with one completed job holding an
output buffer — the concrete state used by several witnesses. -/
def demoState : ServerState :=
  { audioFiles := [{ id := "a", duration := 10 }]
    jobs := []
    jobOutputs := []
    nextId := 0
    now := 0 }

/-- A crossfade request whose single segment `(0, 1)` is shorter than
its requested in-range 2-second crossfade. -/
def shortSegReq : SubmitRequest :=
  { audioFileId := "a"
    markers := [⟨0, 0⟩, ⟨1, 1⟩]
    outputMode := "crossfade"
    crossfadeDuration := some 2 }

/-- A crossfade request that omits `crossfadeDuration`. -/
def noCfReq : SubmitRequest :=
  { audioFileId := "a"
    markers := [⟨0, 0⟩, ⟨1, 1⟩]
    outputMode := "crossfade"
    crossfadeDuration := none }

/-- A request with an out-of-range `crossfadeDuration` of 6 s. -/
def rOutOfRange : SubmitRequest :=
  { audioFileId := "a"
    markers := [⟨0, 0⟩, ⟨1, 1⟩]
    outputMode := "crossfade"
    crossfadeDuration := some 6 }

/-- A completed job whose output bytes are still stored. -/
def completedJob : ProcessingJob :=
  { id := 0
    audioFileId := "a"
    outputMode := "direct"
    crossfadeDuration := none
    status := .completed
    outputFilename := none
    createdAt := 0
    completedAt := some 1 }

/-- A state holding `completedJob` and its output buffer `[7]`. -/
def downloadState : ServerState :=
  { audioFiles := []
    jobs := [completedJob]
    jobOutputs := [(0, [7])]
    nextId := 1
    now := 2 }

/-- Pairwise characterisation of `buildSegments` when every sorted pair is
strictly increasing: the result has one segment per marker pair, and the
`k`-th segment carries the timestamps of the markers at positions `2k`
and `2k+1`. -/
theorem buildSegments_spec : ∀ (s : List Marker),
    (∀ k a b, s[2*k]? = some a → s[2*k+1]? = some b → a.timestamp < b.timestamp) →
    (buildSegments s).length = s.length / 2 ∧
    (∀ k a b, s[2*k]? = some a → s[2*k+1]? = some b →
      (buildSegments s)[k]? = some { startTime := a.timestamp, endTime := b.timestamp })
  | [], _ => by simp [buildSegments]
  | [a], _ => by
    refine ⟨by simp [buildSegments], ?_⟩
    intro k x y hx hy
    rcases k with _ | k <;> simp_all
  | a :: b :: t, hpairs => by
    have hab : a.timestamp < b.timestamp := hpairs 0 a b (by simp) (by simp)
    have ht : ∀ k x y, t[2*k]? = some x → t[2*k+1]? = some y →
        x.timestamp < y.timestamp := by
      intro k x y hx hy
      refine hpairs (k+1) x y ?_ ?_
      · have : 2*(k+1) = 2*k+1+1 := by ring
        rw [this]
        simpa using hx
      · have : 2*(k+1)+1 = 2*k+1+1+1 := by ring
        rw [this]
        simpa using hy
    obtain ⟨ihlen, ihget⟩ := buildSegments_spec t ht
    constructor
    · simp only [buildSegments, if_pos hab, List.length_cons, ihlen]
      omega
    · intro k x y hx hy
      rcases k with _ | k
      · simp only [Nat.mul_zero, List.getElem?_cons_zero] at hx
        simp only [Nat.mul_zero, Nat.zero_add, List.getElem?_cons_succ,
          List.getElem?_cons_zero] at hy
        cases hx; cases hy
        simp [buildSegments, if_pos hab]
      · have hx' : t[2*k]? = some x := by
          have : 2*(k+1) = 2*k+1+1 := by ring
          rw [this] at hx
          simpa using hx
        have hy' : t[2*k+1]? = some y := by
          have : 2*(k+1)+1 = 2*k+1+1+1 := by ring
          rw [this] at hy
          simpa using hy
        simp only [buildSegments, if_pos hab, List.getElem?_cons_succ]
        exact ihget k x y hx' hy'

/-- C1: For every even-length marker list whose timestamp-sorted order has
strictly increasing pairs, the segment-building step produces exactly
`length / 2` segments, and the `k`-th segment's `(startTime, endTime)`
equals the timestamps of the sorted markers at positions `2k` and
`2k+1`. -/
theorem segment_building_pairs_exact (ms : List Marker)
    (heven : ms.length % 2 = 0)
    (hpairs : ∀ k a b, (sortMarkers ms)[2*k]? = some a →
      (sortMarkers ms)[2*k+1]? = some b → a.timestamp < b.timestamp) :
    (buildSegments (sortMarkers ms)).length = ms.length / 2 ∧
    (∀ k a b, (sortMarkers ms)[2*k]? = some a →
      (sortMarkers ms)[2*k+1]? = some b →
      (buildSegments (sortMarkers ms))[k]? =
        some { startTime := a.timestamp, endTime := b.timestamp }) := by
  obtain ⟨hlen, hget⟩ := buildSegments_spec (sortMarkers ms) hpairs
  refine ⟨?_, hget⟩
  rw [hlen, sortMarkers, List.length_insertionSort]

/-- Witness for C1 at markers `[(0,0), (10,1), (20,2), (30,3)]`
(spec Scenario B). -/
theorem segment_building_pairs_exact_witness :
    (buildSegments (sortMarkers
      [⟨0, 0⟩, ⟨10, 1⟩, ⟨20, 2⟩, ⟨30, 3⟩])).length = 2 ∧
    (buildSegments (sortMarkers
      [⟨0, 0⟩, ⟨10, 1⟩, ⟨20, 2⟩, ⟨30, 3⟩]))[0]? = some ⟨0, 10⟩ := by
  have hp : ∀ k a b,
      (sortMarkers [⟨0, 0⟩, ⟨10, 1⟩, ⟨20, 2⟩, ⟨30, 3⟩])[2*k]? = some a →
      (sortMarkers [⟨0, 0⟩, ⟨10, 1⟩, ⟨20, 2⟩, ⟨30, 3⟩])[2*k+1]? = some b →
      a.timestamp < b.timestamp := by
    intro k a b ha hb
    have hk : 2*k+1 < 4 := by
      by_contra hkk
      rw [List.getElem?_eq_none
        (by rw [sortMarkers, List.length_insertionSort]; simp; omega)] at hb
      exact Option.noConfusion hb
    have hk2 : k < 2 := by omega
    interval_cases k
    · have ha' : a = ⟨0, 0⟩ := by
        have : (sortMarkers [⟨0, 0⟩, ⟨10, 1⟩, ⟨20, 2⟩, ⟨30, 3⟩])[2*0]? =
            some (⟨0, 0⟩ : Marker) := by decide
        rw [this] at ha
        exact (Option.some_inj.mp ha).symm
      have hb' : b = ⟨10, 1⟩ := by
        have : (sortMarkers [⟨0, 0⟩, ⟨10, 1⟩, ⟨20, 2⟩, ⟨30, 3⟩])[2*0+1]? =
            some (⟨10, 1⟩ : Marker) := by decide
        rw [this] at hb
        exact (Option.some_inj.mp hb).symm
      rw [ha', hb']
      decide
    · have ha' : a = ⟨20, 2⟩ := by
        have : (sortMarkers [⟨0, 0⟩, ⟨10, 1⟩, ⟨20, 2⟩, ⟨30, 3⟩])[2*1]? =
            some (⟨20, 2⟩ : Marker) := by decide
        rw [this] at ha
        exact (Option.some_inj.mp ha).symm
      have hb' : b = ⟨30, 3⟩ := by
        have : (sortMarkers [⟨0, 0⟩, ⟨10, 1⟩, ⟨20, 2⟩, ⟨30, 3⟩])[2*1+1]? =
            some (⟨30, 3⟩ : Marker) := by decide
        rw [this] at hb
        exact (Option.some_inj.mp hb).symm
      rw [ha', hb']
      decide
  have h := segment_building_pairs_exact
    [⟨0, 0⟩, ⟨10, 1⟩, ⟨20, 2⟩, ⟨30, 3⟩] (by decide) hp
  exact ⟨h.1, h.2 0 ⟨0, 0⟩ ⟨10, 1⟩ (by decide) (by decide)⟩

/-- Every segment the loop pushes passed the `startMarker.timestamp <
endMarker.timestamp` guard. -/
theorem buildSegments_start_lt_end : ∀ (l : List Marker) (s : Segment),
    s ∈ buildSegments l → s.startTime < s.endTime
  | [], s, h => by simp [buildSegments] at h
  | [_], s, h => by simp [buildSegments] at h
  | a :: b :: t, s, h => by
    by_cases hab : a.timestamp < b.timestamp
    · simp only [buildSegments, if_pos hab, List.mem_cons] at h
      rcases h with h | h
      · rw [h]; exact hab
      · exact buildSegments_start_lt_end t s h
    · simp only [buildSegments, if_neg hab] at h
      exact buildSegments_start_lt_end t s h

/-- The loop performs one push-or-skip decision per marker pair, so it can
never produce more than `⌊length / 2⌋` segments. -/
theorem buildSegments_length_le : ∀ l : List Marker,
    (buildSegments l).length ≤ l.length / 2
  | [] => by simp [buildSegments]
  | [_] => by simp [buildSegments]
  | a :: b :: t => by
    have ih := buildSegments_length_le t
    by_cases hab : a.timestamp < b.timestamp
    · simp only [buildSegments, if_pos hab, List.length_cons]
      omega
    · simp only [buildSegments, if_neg hab, List.length_cons]
      omega

/-- C9: every produced segment satisfies `startTime < endTime`; a pair with
`start ≥ end`, or a lone trailing marker, is skipped without an error, so
the produced count is at most — and can be strictly less than —
`⌊length / 2⌋` (shown at the markers `[(5,0), (5,1)]` of spec Scenario E
and at an odd list with a lone trailing marker). -/
theorem segment_invariant_and_skipping :
    (∀ (l : List Marker) (s : Segment), s ∈ buildSegments l →
      s.startTime < s.endTime) ∧
    (∀ l : List Marker, (buildSegments l).length ≤ l.length / 2) ∧
    buildSegments [⟨5, 0⟩, ⟨5, 1⟩] = [] ∧
    (buildSegments [⟨5, 0⟩, ⟨5, 1⟩]).length <
      ([⟨5, 0⟩, ⟨5, 1⟩] : List Marker).length / 2 ∧
    buildSegments [⟨1, 0⟩, ⟨2, 1⟩, ⟨3, 2⟩] = [⟨1, 2⟩] :=
  ⟨buildSegments_start_lt_end, buildSegments_length_le,
   by decide, by decide, by decide⟩

/-- Witness for C9: the strict-inequality invariant applied at a concrete
list and a concrete produced segment. -/
theorem segment_invariant_and_skipping_witness :
    (Segment.mk 1 2).startTime < (Segment.mk 1 2).endTime :=
  segment_invariant_and_skipping.1 [⟨1, 0⟩, ⟨2, 1⟩, ⟨3, 2⟩] ⟨1, 2⟩ (by decide)

/-- Filtering an `orderedInsert` result to one timestamp value: the
inserted marker lands in front of the equal-timestamp markers already in
the list (every marker skipped over has a strictly smaller timestamp). -/
theorem filter_orderedInsert_timestamp (a : Marker) (c : ℚ) :
    ∀ s : List Marker,
      (s.orderedInsert markerLE a).filter (fun x => decide (x.timestamp = c)) =
      if a.timestamp = c then
        a :: s.filter (fun x => decide (x.timestamp = c))
      else
        s.filter (fun x => decide (x.timestamp = c))
  | [] => by
    simp only [List.orderedInsert, List.filter]
    split_ifs with h <;> simp [h]
  | x :: t => by
    by_cases hax : markerLE a x
    · simp only [List.orderedInsert, if_pos hax, List.filter]
      split_ifs <;> simp_all
    · have ih := filter_orderedInsert_timestamp a c t
      by_cases hac : a.timestamp = c
      · have hxc : ¬ x.timestamp = c := by
          intro hxc
          exact hax (le_of_eq (by rw [hac, hxc] : a.timestamp = x.timestamp))
        simp [List.orderedInsert, hax, List.filter_cons, ih, hac, hxc]
      · simp [List.orderedInsert, hax, List.filter_cons, ih, hac]

/-- Stability of the marker sort: the subsequence of markers sharing any
one timestamp is unchanged by sorting (ties keep their input order). -/
theorem sortMarkers_filter_timestamp (ms : List Marker) (c : ℚ) :
    (sortMarkers ms).filter (fun x => decide (x.timestamp = c)) =
    ms.filter (fun x => decide (x.timestamp = c)) := by
  induction ms with
  | nil => rfl
  | cons a t ih =>
    show ((List.insertionSort markerLE t).orderedInsert markerLE a).filter _ = _
    rw [filter_orderedInsert_timestamp]
    by_cases hac : a.timestamp = c
    · rw [if_pos hac]
      show _ = List.filter _ (a :: t)
      rw [List.filter_cons_of_pos (by simpa using hac)]
      exact congrArg _ ih
    · rw [if_neg hac]
      show _ = List.filter _ (a :: t)
      rw [List.filter_cons_of_neg (by simpa using hac)]
      exact ih

/-- C8 counterexample: the lists `[(1,1), (1,0)]` and `[(1,0), (1,1)]`
hold the same markers (same timestamps and orders), yet sort to different
sequences — the comparator `(a, b) => a.timestamp - b.timestamp` ignores
`order`, and the stable sort keeps equal-timestamp markers in input
order, leaving `order = 1` in front. -/
theorem marker_sort_tie_break_counterexample :
    ([⟨1, 1⟩, ⟨1, 0⟩] : List Marker).Perm [⟨1, 0⟩, ⟨1, 1⟩] ∧
    sortMarkers [⟨1, 1⟩, ⟨1, 0⟩] ≠ sortMarkers [⟨1, 0⟩, ⟨1, 1⟩] ∧
    sortMarkers [⟨1, 1⟩, ⟨1, 0⟩] = [⟨1, 1⟩, ⟨1, 0⟩] := by
  refine ⟨?_, by decide, by decide⟩
  exact List.Perm.swap _ _ _

/-- C8 (amended): the canonical ordering used for pairing sorts markers
ascending by timestamp; markers with equal timestamps keep their relative
input-list order (the sort is stable), and the `order` field plays no
role, so the sorted sequence can differ between input arrangements of the
same markers. -/
theorem marker_sort_canonical (ms : List Marker) :
    (sortMarkers ms).Perm ms ∧
    List.Sorted markerLE (sortMarkers ms) ∧
    ∀ c : ℚ, (sortMarkers ms).filter (fun x => decide (x.timestamp = c)) =
      ms.filter (fun x => decide (x.timestamp = c)) :=
  ⟨List.perm_insertionSort markerLE ms,
   List.sorted_insertionSort markerLE ms,
   fun c => sortMarkers_filter_timestamp ms c⟩

/-- C3: for crossfade mode with `n > 1` segments the executed plan is a
left-to-right chain of exactly `n − 1` pairwise crossfades: the first
combines segment artifacts 0 and 1; the `k`-th (for `k ≥ 1`) combines the
running merged result (the previous op's output) with segment artifact
`k + 1`; every op uses the configured crossfade duration; and the final
mapped output `[a0(n-1)]` is the last op's output. -/
theorem crossfade_chain_plan (n : Nat) (d : ℚ) (hn : 1 < n) :
    (crossfadeChain n d).length = n - 1 ∧
    (crossfadeChain n d)[0]? =
      some { left := .input 0, right := .input 1, d := d, out := .merged 1 } ∧
    (∀ k, 0 < k → k < n - 1 →
      (crossfadeChain n d)[k]? =
        some { left := .merged k, right := .input (k + 1), d := d,
               out := .merged (k + 1) }) ∧
    (∀ op ∈ crossfadeChain n d, op.d = d) ∧
    (∀ k, k + 1 < n - 1 →
      ((crossfadeChain n d)[k]?.map CrossfadeOp.out) =
      ((crossfadeChain n d)[k+1]?.map CrossfadeOp.left)) ∧
    (crossfadeChain n d).getLast? =
      ((crossfadeChain n d)[n-2]?) ∧
    ((crossfadeChain n d)[n-2]?.map CrossfadeOp.out) = some (.merged (n - 1)) := by
  have hlen : (crossfadeChain n d).length = n - 1 := by
    simp [crossfadeChain]
  have hget : ∀ k, k < n - 1 → (crossfadeChain n d)[k]? =
      some (if k = 0 then
        { left := .input 0, right := .input 1, d := d, out := .merged 1 }
      else
        { left := .merged k, right := .input (k + 1), d := d,
          out := .merged (k + 1) }) := by
    intro k hk
    simp [crossfadeChain, List.getElem?_map, List.getElem?_range hk]
  refine ⟨hlen, ?_, ?_, ?_, ?_, ?_, ?_⟩
  · rw [hget 0 (by omega)]
    simp
  · intro k hk0 hk
    rw [hget k hk]
    simp [Nat.pos_iff_ne_zero.mp hk0]
  · intro op hop
    simp only [crossfadeChain, List.mem_map] at hop
    obtain ⟨i, _, hi⟩ := hop
    by_cases h0 : i = 0 <;> simp [h0] at hi <;> rw [← hi]
  · intro k hk
    rw [hget k (by omega), hget (k+1) (by omega)]
    by_cases h0 : k = 0 <;> simp [h0]
  · rw [List.getLast?_eq_getElem?, hlen]
    have : n - 1 - 1 = n - 2 := by omega
    rw [this]
  · rw [hget (n-2) (by omega)]
    by_cases h2 : n = 2
    · simp [h2]
    · have hne : ¬ (n - 2 = 0) := by omega
      have : n - 2 + 1 = n - 1 := by omega
      simp [hne, this]

/-- Witness for C3 at `n = 3`, `d = 1`: two chained crossfades. -/
theorem crossfade_chain_plan_witness :
    (crossfadeChain 3 1).length = 2 ∧
    (crossfadeChain 3 1)[0]? =
      some { left := .input 0, right := .input 1, d := 1, out := .merged 1 } ∧
    (crossfadeChain 3 1)[1]? =
      some { left := .merged 1, right := .input 2, d := 1, out := .merged 2 } := by
  obtain ⟨h1, h2, h3, _⟩ := crossfade_chain_plan 3 1 (by omega)
  exact ⟨h1, h2, h3 1 (by omega) (by omega)⟩

/-- C2: a `/api/process` request with an odd marker list fails the Zod
parse, so the handler answers the validation `400` with the state
untouched — no job row is created and no asynchronous processing task
(hence no transcoder invocation) is spawned, so the input can never reach
a job's `failed` state. -/
theorem odd_markers_rejected (r : SubmitRequest) (st : ServerState)
    (hodd : r.markers.length % 2 = 1) :
    postProcess r st = (.validationError, st, none) ∧
    (postProcess r st).2.1.jobs = st.jobs := by
  have h2 : (r.markers.length % 2 == 0) = false := by
    simp [hodd]
  have hv : processRequestValid r = false := by
    simp [processRequestValid, markerListValid, h2]
  constructor
  · simp [postProcess, hv]
  · simp [postProcess, hv]

/-- Witness for C2 at a three-marker request against the demo state. -/
theorem odd_markers_rejected_witness :
    postProcess
      { audioFileId := "a", markers := [⟨1, 0⟩, ⟨2, 1⟩, ⟨3, 2⟩],
        outputMode := "direct", crossfadeDuration := none }
      demoState =
      (.validationError, demoState, none) :=
  (odd_markers_rejected
    { audioFileId := "a", markers := [⟨1, 0⟩, ⟨2, 1⟩, ⟨3, 2⟩],
      outputMode := "direct", crossfadeDuration := none }
    demoState (by decide)).1

/-- C4: a job is created `"pending"`; in the sequential execution of one
job the observed status history is `pending`, then `processing`, then
exactly one of `completed`/`failed`: every consecutive transition is an
allowed edge of the state machine (so none leaves a terminal state and
none skips `processing`). -/
theorem job_lifecycle (r : SubmitRequest) (st : ServerState)
    (t : SpawnedTask) (b ok : Bool) :
    (mkProcessingJob r st).status = .pending ∧
    (jobStatusTrace t b ok).head? = some .pending ∧
    (jobStatusTrace t b ok)[1]? = some .processing ∧
    ((jobStatusTrace t b ok).getLast? = some .completed ∨
      (jobStatusTrace t b ok).getLast? = some .failed) ∧
    List.Chain' (fun x y => stepAllowed x y = true) (jobStatusTrace t b ok) := by
  refine ⟨rfl, ?_, ?_, ?_, ?_⟩ <;>
    · unfold jobStatusTrace processTaskTrace
      cases b <;> cases ok <;>
        by_cases hpar : ((sortMarkers t.markers).length % 2 == 0) <;>
          simp [hpar, stepAllowed]

/-- C5 (code bug per spec §4.3/§9): a crossfade request whose only
segment `(0, 1)` lasts 1 s, shorter than the requested 2-second
crossfade, passes every implemented validation: the handler accepts it,
creates the job, and spawns the processing task, which issues a
transcoder invocation and completes — there is no `CrossfadeTooLong`
check anywhere in the code. -/
theorem crossfade_too_long_unchecked :
    buildSegments (sortMarkers shortSegReq.markers) = [⟨0, 1⟩] ∧
    ((1 : ℚ) - 0 < 2) ∧
    shortSegReq.crossfadeDuration = some 2 ∧
    processRequestValid shortSegReq = true ∧
    (postProcess shortSegReq demoState).1 = .accepted 0 ∧
    (postProcess shortSegReq demoState).2.2 =
      some { jobId := 0, audioFileId := "a", markers := shortSegReq.markers,
             outputMode := "crossfade", crossfadeDuration := 2 } ∧
    planEngineCalls
      { jobId := 0, audioFileId := "a", markers := shortSegReq.markers,
        outputMode := "crossfade", crossfadeDuration := 2 } = 1 ∧
    processTaskTrace
      { jobId := 0, audioFileId := "a", markers := shortSegReq.markers,
        outputMode := "crossfade", crossfadeDuration := 2 } true true =
      [.processing, .completed] := by
  refine ⟨by decide, by norm_num, by decide, by decide, by decide, by decide,
    by decide, by decide⟩

/-- C6 counterexample: a crossfade request that omits `crossfadeDuration`
is accepted (the schema marks the field `.optional()` for every mode) and
the created job stores the `|| 1.0` default — the claim's "required if
joinMode is crossfade" is false on the code. -/
theorem crossfade_without_duration_accepted :
    noCfReq.outputMode = "crossfade" ∧
    noCfReq.crossfadeDuration = none ∧
    processRequestValid noCfReq = true ∧
    (postProcess noCfReq demoState).1 = .accepted 0 ∧
    (mkProcessingJob noCfReq demoState).crossfadeDuration = some 1 := by
  refine ⟨rfl, rfl, by decide, by decide, by decide⟩

/-- C6 (amended): a `crossfadeDuration` outside `[0.1, 5.0]` is rejected
as a validation error with no job and no processing task; a crossfade
request without `crossfadeDuration` is not rejected for that reason —
the created job falls back to the 1.0-second default. -/
theorem crossfade_duration_validation (r : SubmitRequest)
    (st : ServerState) (d : ℚ) (hd : r.crossfadeDuration = some d)
    (hout : d < mkRat 1 10 ∨ 5 < d) :
    postProcess r st = (.validationError, st, none) ∧
    ∀ r' : SubmitRequest, r'.outputMode = "crossfade" →
      r'.crossfadeDuration = none →
      (mkProcessingJob r' st).crossfadeDuration = some 1 := by
  constructor
  · have hcf : crossfadeDurationValid d = false := by
      unfold crossfadeDurationValid
      rcases hout with h | h
      · simp [not_le.mpr h]
      · simp [not_le.mpr h]
    have hv : processRequestValid r = false := by
      simp [processRequestValid, hd, hcf]
    simp [postProcess, hv]
  · intro r' hmode hnone
    simp [mkProcessingJob, hmode, hnone]

/-- Witness for C6 (amended) at `d = 6` and at the crossfade request
without a duration. -/
theorem crossfade_duration_validation_witness :
    postProcess rOutOfRange demoState = (.validationError, demoState, none) ∧
    (mkProcessingJob noCfReq demoState).crossfadeDuration = some 1 :=
  ⟨(crossfade_duration_validation rOutOfRange demoState 6 rfl
      (Or.inr (by decide))).1,
   (crossfade_duration_validation rOutOfRange demoState 6 rfl
      (Or.inr (by decide))).2 noCfReq rfl rfl⟩

/-- `find?` over the filtered-out key finds nothing: deleting a job's
output really removes every entry under that id. -/
theorem find?_filter_ne (l : List (Nat × List Nat)) (id : Nat) :
    (l.filter (fun p => !(p.1 == id))).find? (fun p => p.1 == id) = none := by
  rw [List.find?_eq_none]
  intro x hx
  have hpx := List.of_mem_filter hx
  simpa using hpx

/-- C7: for a completed job whose output is stored, the first download
answers the bytes and deletes the stored output, so a second download of
the same job answers the `"Output not found"` not-found error —
at-most-once download. -/
theorem download_at_most_once (st : ServerState) (id : Nat)
    (job : ProcessingJob) (data : List Nat)
    (hj : getJob st id = some job) (hc : job.status = .completed)
    (ho : getJobOutput st id = some data) :
    (downloadJob st id).1 = .fileData data ∧
    (downloadJob st id).2 = deleteJobOutput st id ∧
    (downloadJob ((downloadJob st id).2) id).1 = .outputNotFound := by
  have hstep : downloadJob st id = (.fileData data, deleteJobOutput st id) := by
    unfold downloadJob
    rw [hj]
    simp [hc, ho]
  have hj' : getJob (deleteJobOutput st id) id = some job := hj
  have ho' : getJobOutput (deleteJobOutput st id) id = none := by
    unfold getJobOutput deleteJobOutput
    rw [find?_filter_ne]
    rfl
  refine ⟨by rw [hstep], by rw [hstep], ?_⟩
  rw [hstep]
  unfold downloadJob
  rw [hj']
  simp [hc, ho']

/-- Witness for C7 at the demo completed job with output `[7]`. -/
theorem download_at_most_once_witness :
    (downloadJob downloadState 0).1 = .fileData [7] ∧
    (downloadJob ((downloadJob downloadState 0).2) 0).1 = .outputNotFound :=
  ⟨(download_at_most_once downloadState 0 completedJob [7]
      (by decide) rfl (by decide)).1,
   (download_at_most_once downloadState 0 completedJob [7]
      (by decide) rfl (by decide)).2.2⟩

/-- C10: for an existing job, `updateProcessingJobStatus` stores exactly
the spread-updated row: `id`, `audioFileId`, `outputMode`,
`crossfadeDuration` and `createdAt` are unchanged; `status` becomes the
argument; `outputFilename` becomes the argument with a missing argument
stored as `null` (the old value is not preserved); `completedAt` is set
to the current instant exactly on an update to `completed` and keeps its
old value otherwise. -/
theorem update_job_status_frame (st : ServerState) (id : Nat)
    (status : JobStatus) (ofn : Option String) (job : ProcessingJob)
    (hj : getJob st id = some job) :
    (updateProcessingJobStatus st id status ofn).1 =
      some (updateJobRecord job status ofn st.now) ∧
    (updateJobRecord job status ofn st.now).id = job.id ∧
    (updateJobRecord job status ofn st.now).audioFileId = job.audioFileId ∧
    (updateJobRecord job status ofn st.now).outputMode = job.outputMode ∧
    (updateJobRecord job status ofn st.now).crossfadeDuration =
      job.crossfadeDuration ∧
    (updateJobRecord job status ofn st.now).createdAt = job.createdAt ∧
    (updateJobRecord job status ofn st.now).status = status ∧
    (updateJobRecord job status ofn st.now).outputFilename = ofn ∧
    (ofn = none → (updateJobRecord job status ofn st.now).outputFilename
      = none) ∧
    (updateJobRecord job status ofn st.now).completedAt =
      (if status = .completed then some st.now else job.completedAt) := by
  unfold updateProcessingJobStatus
  rw [hj]
  exact ⟨rfl, rfl, rfl, rfl, rfl, rfl, rfl, rfl, fun h => by rw [h]; rfl, rfl⟩

/-- Witness for C10: updating the demo completed job to `failed` with no
filename argument resets `outputFilename` and keeps `completedAt`. -/
theorem update_job_status_frame_witness :
    (updateProcessingJobStatus downloadState 0 .failed none).1 =
      some (updateJobRecord completedJob .failed none downloadState.now) ∧
    (updateJobRecord completedJob .failed none downloadState.now).outputFilename
      = none ∧
    (updateJobRecord completedJob .failed none downloadState.now).completedAt =
      completedJob.completedAt := by
  have h := update_job_status_frame downloadState 0 .failed none completedJob
    (by decide)
  refine ⟨h.1, h.2.2.2.2.2.2.2.2.1 rfl, ?_⟩
  have hc := h.2.2.2.2.2.2.2.2.2
  simpa using hc

end AudioMixer
